import Mathlib

/-!
Shallow embedding of the myRPC repository (a geerpc-style Go RPC framework)
and verification of its specification claims.

Sources embedded:
* `codec` package: `Header`, `GobCodec.Write` (file `codec/gob.go`).
* `registry` package: `GeeRegistry`, `putServer`, `aliveServers`, `ServeHTTP`.
* `myRPC` package, server side: `service.registerMethods`,
  `isExportedOrBuiltinType`, `Server.handleRequest`.
* `myRPC` package, client side: `Client.registerCall`, `Client.removeCall`,
  `Client.send`, `Client.Call`.
* `xclient` package: `MultiServersDiscovery` with `Get` and `GetAll`.

Go machine integers are modelled as `Nat` with explicit reduction modulo
`2 ^ 64` where the source uses `uint64` arithmetic that can wrap.
Time instants are modelled as natural numbers; `time.Time.Add` / `After`
become `+` / `<` on `Nat`.
-/

/-! ## Codec: header and the gob codec's Write path

From `codec/codec.go`:
`type Header struct { ServiceMethod string; Seq uint64; Error string }`.
-/

structure RpcHeader where
  serviceMethod : String
  seq : Nat
  error : String
deriving DecidableEq, Repr

/-- A frame placed on the buffered writer / the underlying stream by the gob
encoder: either an encoded header or an encoded body.  Bodies are kept
abstract as strings. -/
inductive Frame where
  | header (h : RpcHeader)
  | body (b : String)
deriving DecidableEq, Repr

/-- State of a `GobCodec`: the buffered writer `buf` (a `bufio.Writer` over
`conn`), the frames already flushed to the underlying stream `conn`, and
whether the underlying stream has been closed. -/
structure GobCodec where
  buf : List Frame
  conn : List Frame
  closed : Bool
deriving DecidableEq, Repr

/-- `c.buf.Flush()`: move all buffered frames onto the underlying stream. -/
def GobCodec.flush (c : GobCodec) : GobCodec :=
  { c with conn := c.conn ++ c.buf, buf := [] }

/-- `GobCodec.Close`: `return c.conn.Close()`. -/
def GobCodec.close (c : GobCodec) : GobCodec :=
  { c with closed := true }

/-- `GobCodec.Write (c *GobCodec) (h *Header, body interface{}) (err error)`.
The two `gob` `Encode` calls can fail for reasons outside this model
(unencodable values); the oracles `encHeaderErr` and `encBodyErr` supply
those outcomes (`none` = the encode succeeds and appends a frame to the
buffered writer).  The deferred function runs before returning: it flushes
the buffer and, when the named return `err` is non-nil, calls `c.Close()`. -/
def GobCodec.write (encHeaderErr encBodyErr : Option String) (c : GobCodec)
    (h : RpcHeader) (b : String) : GobCodec × Option String :=
  match encHeaderErr with
  | some e => ((c.flush).close, some e)
  | none =>
    let c1 : GobCodec := { c with buf := c.buf ++ [Frame.header h] }
    match encBodyErr with
    | some e => ((c1.flush).close, some e)
    | none =>
      let c2 : GobCodec := { c1 with buf := c1.buf ++ [Frame.body b] }
      (c2.flush, none)

/-! ## Heartbeat registry

From `registry/registry.go`.  `GeeRegistry.servers` is a Go map
`addr -> *ServerItem`; it is modelled as an association list with distinct
keys.  `ServerItem.start` (the `lastSeen` time) is a `Nat` instant. -/

structure GeeRegistry where
  timeout : Nat
  servers : List (String × Nat)
deriving DecidableEq, Repr

/-- `putServer`: `s := r.servers[addr]; if s == nil { r.servers[addr] =
&ServerItem{Addr: addr, start: time.Now()} }`.  Note the source has no
`else` branch: an existing entry is left untouched. -/
def GeeRegistry.putServer (r : GeeRegistry) (now : Nat) (addr : String) :
    GeeRegistry :=
  match r.servers.lookup addr with
  | some _ => r
  | none => { r with servers := r.servers ++ [(addr, now)] }

/-- The liveness test from `aliveServers`:
`r.timeout == 0 || s.start.Add(r.timeout).After(time.Now())`. -/
def aliveTest (timeout now : Nat) (p : String × Nat) : Bool :=
  timeout == 0 || decide (now < p.2 + timeout)

/-- `sort.Strings`, modelled as insertion sort by the lexicographic order on
`String` (any correct sorting routine has this input/output relation). -/
def sortStrings (l : List String) : List String :=
  List.insertionSort (fun a b => a ≤ b) l

/-- `aliveServers`: iterate over the map, keep an address when the liveness
test passes, `delete` it from the map otherwise, then `sort.Strings(alive)`.
Returns the sorted alive list together with the updated registry.
(Go map iteration order is arbitrary; appending in list order followed by
sorting yields the same result.) -/
def GeeRegistry.aliveServers (r : GeeRegistry) (now : Nat) :
    List String × GeeRegistry :=
  (sortStrings ((r.servers.filter (aliveTest r.timeout now)).map Prod.fst),
   { r with servers := r.servers.filter (aliveTest r.timeout now) })

inductive HttpMethod where
  | get
  | post
  | other
deriving DecidableEq, Repr

/-- The observable outcome of one registry HTTP request: the status code and
the `X-Geerpc-Servers` response header when set.  Go's `http.ResponseWriter`
reports status 200 when `WriteHeader` is never called. -/
structure HttpResponse where
  status : Nat
  serversHeader : Option String
deriving DecidableEq, Repr

/-- `GeeRegistry.ServeHTTP`.  The request is reduced to its method and the
value of the `X-Geerpc-Server` header (`""` when absent, as in Go's
`Header.Get`). -/
def GeeRegistry.serveHTTP (r : GeeRegistry) (now : Nat) (m : HttpMethod)
    (serverHeader : String) : GeeRegistry × HttpResponse :=
  match m with
  | .get =>
    let res := r.aliveServers now
    (res.2, { status := 200,
              serversHeader := some (String.intercalate "," res.1) })
  | .post =>
    if serverHeader = "" then
      (r, { status := 500, serversHeader := none })
    else
      (r.putServer now serverHeader, { status := 200, serversHeader := none })
  | .other => (r, { status := 405, serversHeader := none })

/-! ## Service method registration

From `service.go`.  A `reflect.Type` is reduced to the three observations
the source makes of it: `Name()`, `PkgPath()`, and `Kind() == reflect.Ptr`.
A method of the receiver is reduced to the observations made of
`method.Type`: `NumIn()`, `NumOut()`, whether `Out(0)` is the `error`
interface type, and `In(1)` / `In(2)`. -/

structure RType where
  name : String
  pkgPath : String
  isPtr : Bool
deriving DecidableEq, Repr

structure RMethod where
  name : String
  numIn : Nat
  numOut : Nat
  outIsError : Bool
  argType : RType
  replyType : RType
deriving DecidableEq, Repr

/-- `ast.IsExported`: the name starts with an upper-case letter. -/
def isExported (s : String) : Bool :=
  match s.data with
  | [] => false
  | c :: _ => c.isUpper

/-- `isExportedOrBuiltinType`:
`return ast.IsExported(t.Name()) || t.PkgPath() == ""`. -/
def isExportedOrBuiltinType (t : RType) : Bool :=
  isExported t.name || t.pkgPath == ""

/-- Go reflection semantics: `reflect.Type.NumMethod` / `Method(i)` on a
non-interface type enumerate only the *exported* methods of the receiver.
`allMethods` is the receiver's full method set; the loop in
`registerMethods` sees this filtered list. -/
def reflectMethodSet (allMethods : List RMethod) : List RMethod :=
  allMethods.filter (fun m => isExported m.name)

/-- The body of the loop in `registerMethods`: the three `continue` guards.
`mType.NumIn() != 3 || mType.NumOut() != 1`, then
`mType.Out(0) != reflect.TypeOf((*error)(nil)).Elem()`, then
`!isExportedOrBuiltinType(argType) || !isExportedOrBuiltinType(replyType)`. -/
def passesRegisterGuards (m : RMethod) : Bool :=
  m.numIn == 3 && m.numOut == 1 && m.outIsError &&
    isExportedOrBuiltinType m.argType && isExportedOrBuiltinType m.replyType

/-- `registerMethods`: the methods of the receiver that end up in
`s.method`, in enumeration order. -/
def registerMethods (allMethods : List RMethod) : List RMethod :=
  (reflectMethodSet allMethods).filter passesRegisterGuards

/-- The eligibility predicate exactly as the specification states it
(claim C1): name exported, two parameters after the receiver, one `error`
result, the second parameter of pointer shape, and both parameter types
exported or built-in.  Written from the spec, to be compared against
`registerMethods`. -/
def specEligible (m : RMethod) : Bool :=
  isExported m.name && m.numIn == 3 && m.numOut == 1 && m.outIsError &&
    m.replyType.isPtr &&
    isExportedOrBuiltinType m.argType && isExportedOrBuiltinType m.replyType

/-- The eligibility predicate actually enforced by the source: as the spec
says, minus the pointer-shape requirement on the reply type. -/
def codeEligible (m : RMethod) : Bool :=
  isExported m.name && passesRegisterGuards m

/-! ## Client state: registerCall, removeCall, send, Call

From the client part of the `myRPC` package. -/

/-- Client-side errors distinguished by the claims. -/
inductive RpcError where
  | shutdown
  | callFailed (msg : String)
  | writeErr (msg : String)
deriving DecidableEq, Repr

def U64 : Nat := 2 ^ 64

/-- The mutable fields of `Client` that `registerCall` / `removeCall` /
`send` / `Call` touch: the `seq` counter (a `uint64`), the `pending` map
(here `Seq -> ServiceMethod`), and the two flags. -/
structure ClientState where
  seq : Nat
  pending : List (Nat × String)
  closing : Bool
  shutdown : Bool
deriving DecidableEq, Repr

/-- `newClientCodec` initialises `seq: 1` (0 means an invalid call) with an
empty pending map and both flags false. -/
def initClient : ClientState :=
  { seq := 1, pending := [], closing := false, shutdown := false }

/-- `registerCall`: under the state lock, fail with `ErrShutdown` when
`closing || shutdown`; otherwise `call.Seq = client.seq`, insert into
`pending`, `client.seq++` (uint64 increment, hence modulo `2 ^ 64`). -/
def registerCall (c : ClientState) (sm : String) :
    Except RpcError (Nat × ClientState) :=
  if c.closing || c.shutdown then
    .error .shutdown
  else
    .ok (c.seq,
      { c with pending := c.pending ++ [(c.seq, sm)],
               seq := (c.seq + 1) % U64 })

/-- `removeCall`: `delete(client.pending, seq)`. -/
def removeCall (c : ClientState) (seq : Nat) : ClientState :=
  { c with pending := c.pending.filter (fun p => p.1 != seq) }

/-- Iterate `n` successful `registerCall` operations (all with method name
`sm`), collecting the assigned `Seq` values in order.  A failing
registration registers nothing and assigns nothing. -/
def runRegisters (sm : String) : ClientState → Nat → ClientState × List Nat
  | c, 0 => (c, [])
  | c, n + 1 =>
    match registerCall c sm with
    | .error _ => (c, [])
    | .ok (s, c1) =>
      let r := runRegisters sm c1 n
      (r.1, s :: r.2)

/-- What `send` does to the client state and to the call, as observed at the
call's `Done` channel.  `doneError = some e` means `call.done()` was invoked
during `send` with `call.Error = e`; `none` means `send` returned leaving
the call pending (awaiting the reader).  `wErr` is the outcome of
`client.cc.Write` (transport oracle). -/
structure SendResult where
  state : ClientState
  assignedSeq : Option Nat
  doneError : Option (Option RpcError)
deriving DecidableEq, Repr

/-- `Client.send` (and hence `Go`, which builds the `Call` and invokes
`send`): register the call; on registration failure set `call.Error` and
signal `done`.  Otherwise write the frame; on write failure remove the
pending entry and, when still present, signal `done` with the write error. -/
def clientSend (wErr : Option String) (c : ClientState) (sm : String) :
    SendResult :=
  match registerCall c sm with
  | .error e => { state := c, assignedSeq := none, doneError := some (some e) }
  | .ok (s, c1) =>
    match wErr with
    | none => { state := c1, assignedSeq := some s, doneError := none }
    | some msg =>
      -- call := client.removeCall(seq); if call != nil { call.Error = err;
      -- call.done() }.  Right after a successful registerCall the entry is
      -- present, so done is signalled with the write error.
      { state := removeCall c1 s, assignedSeq := some s,
        doneError := some (some (.writeErr msg)) }

/-- Which arm of the `select` in `Client.Call` fires first: the caller's
context is cancelled (with `ctx.Err().Error()` = `ctxErr`), or the call's
`Done` channel is signalled with `call.Error = e`. -/
inductive CallEvent where
  | ctxDone (ctxErr : String)
  | done (e : Option RpcError)
deriving DecidableEq, Repr

/-- The `select` in `Client.Call`, for a call whose assigned sequence number
is `seq`: on `ctx.Done()`, `client.removeCall(call.Seq)` and return
`errors.New("rpc client: call failed: " + ctx.Err().Error())`; on
`call.Done`, return `call.Error`. -/
def clientCallSelect (c : ClientState) (seq : Nat) (ev : CallEvent) :
    ClientState × Option RpcError :=
  match ev with
  | .ctxDone ctxErr =>
    (removeCall c seq, some (.callFailed ("rpc client: call failed: " ++ ctxErr)))
  | .done e => (c, e)

/-! ## Discovery: MultiServersDiscovery

From `xclient/discovery.go`. -/

inductive SelectMode where
  | randomSelect
  | roundRobinSelect
deriving DecidableEq, Repr

structure MSDiscovery where
  servers : List String
  index : Nat
deriving DecidableEq, Repr

/-- `math.MaxInt32 - 1`: the bound passed to `r.Intn` in
`NewMultiServersDiscovery`. -/
def maxInt32m1 : Nat := 2 ^ 31 - 2

/-- `NewMultiServersDiscovery`: keep the provided server list and initialise
the round-robin cursor to `d.r.Intn(math.MaxInt32 - 1)`.  The random source
is modelled by the draw `rngDraw`; `Intn n` yields a value in `[0, n)`,
rendered here as `rngDraw % (math.MaxInt32 - 1)`. -/
def newMultiServersDiscovery (servers : List String) (rngDraw : Nat) :
    MSDiscovery :=
  { servers := servers, index := rngDraw % maxInt32m1 }

/-- `MultiServersDiscovery.Get`.  `rngDraw` models the `d.r.Intn(n)` draw
used only by the random mode.  Mirrors the source: `n := len(d.servers)`;
empty list fails; random mode returns `d.servers[d.r.Intn(n)]`; round-robin
returns `s := d.servers[d.index%n]` then sets `d.index = (d.index + 1) % n`. -/
def msdGet (d : MSDiscovery) (mode : SelectMode) (rngDraw : Nat) :
    Except String (String × MSDiscovery) :=
  let n := d.servers.length
  if n = 0 then
    .error "rpc discovery: no available servers"
  else
    match mode with
    | .randomSelect => .ok (d.servers.getD (rngDraw % n) "", d)
    | .roundRobinSelect =>
      .ok (d.servers.getD (d.index % n) "",
           { d with index := (d.index + 1) % n })

/-- `k` consecutive round-robin `Get` calls (no interleaving `Update`),
collecting the returned servers in order. -/
def rrGetMany : MSDiscovery → Nat → List String × MSDiscovery
  | d, 0 => ([], d)
  | d, k + 1 =>
    match msdGet d .roundRobinSelect 0 with
    | .error _ => ([], d)
    | .ok (s, d1) =>
      let r := rrGetMany d1 k
      (s :: r.1, r.2)

/-! ## GetAll and slice aliasing

`GetAll` allocates a fresh slice with `make([]string, len, len)` and fills
it with `copy(servers, d.servers)`.  To state the frame property (mutating
the returned slice never touches the discovery's internal list), slices are
modelled as references into a store of allocated slices. -/

/-- `make([]string, n, n)`: a zero-valued slice of length `n`. -/
def makeSlice (n : Nat) : List String := List.replicate n ""

/-- Go's `copy(dst, src)` viewed as the resulting contents of `dst`: the
first `min (len dst) (len src)` elements come from `src`, the rest keep
`dst`'s values. -/
def goCopy (dst src : List String) : List String :=
  src.take dst.length ++ dst.drop src.length

/-- A store of allocated slices: contents per reference, plus the next free
reference. -/
structure SliceHeap where
  contents : Nat → List String
  next : Nat

/-- Discovery state with its server slice held by reference. -/
structure MSDiscoveryRef where
  serversRef : Nat
  index : Nat

/-- Writing through a slice reference (a later mutation of a slice by
whoever holds it). -/
def SliceHeap.write (h : SliceHeap) (r : Nat) (v : List String) : SliceHeap :=
  { h with contents := fun i => if i = r then v else h.contents i }

/-- `MultiServersDiscovery.GetAll`: allocate `servers :=
make([]string, len, len)`, `copy(servers, d.servers)`, return the fresh
slice.  The discovery state is not modified. -/
def msdGetAll (h : SliceHeap) (d : MSDiscoveryRef) :
    SliceHeap × MSDiscoveryRef × Nat :=
  let src := h.contents d.serversRef
  let fresh := goCopy (makeSlice src.length) src
  ({ contents := fun i => if i = h.next then fresh else h.contents i,
     next := h.next + 1 },
   d, h.next)

/-! ## Server.handleRequest under a nonzero HandleTimeout

From `server.go`.  With `timeout != 0`, `handleRequest` races
`time.After(timeout)` against the unbuffered channel `called`, which the
worker goroutine sends on after `req.svc.call` returns; the worker then
writes its response under the `sending` mutex and sends on the unbuffered
channel `sent`.  The joint behaviour of the two goroutines and the two
rendezvous channels is a small transition system; `writes` records the
responses written to the connection (each response is reduced to its
header's `Error` string; the handler's own response is `hresp`, the timeout
response is `tresp`). -/

/-- The worker goroutine's position: before the `called` send, after the
`called` rendezvous, after its `sendResponse`, after the `sent`
rendezvous. -/
inductive WorkerPos where
  | start
  | called
  | responded
  | finished
deriving DecidableEq, Repr

/-- `handleRequest`'s position in the `select`: still selecting, took the
`time.After` branch (wrote the timeout response and returned), took the
`called` branch (waiting on `sent`), or done. -/
inductive MainPos where
  | selecting
  | timedOut
  | waitSent
  | done
deriving DecidableEq, Repr

structure HandleConfig where
  worker : WorkerPos
  main : MainPos
  writes : List String
deriving DecidableEq, Repr

/-- The Error string of the server's timeout response:
`fmt.Sprintf("rpc server: request handle timeout: except within %s",
timeout)`. -/
def timeoutRespError (timeoutStr : String) : String :=
  "rpc server: request handle timeout: except within " ++ timeoutStr

/-- One interleaving step of `handleRequest` (main) and its worker
goroutine.
* `timeoutFires`: `time.After(timeout)` delivers while the `select` is still
  pending, so the `called` rendezvous has not completed; main writes the
  timeout response and returns.
* `rendezvousCalled`: the worker's `called <- struct{}{}` synchronises with
  the `select`'s `<-called` arm (both sides must be ready: the channel is
  unbuffered).
* `workerResponds`: the worker, past the rendezvous, performs its own
  `sendResponse` (success or handler-error), appending `hresp`.
* `rendezvousSent`: the worker's `sent <- struct{}{}` synchronises with
  main's `<-sent`. -/
inductive HandleStep (hresp tresp : String) :
    HandleConfig → HandleConfig → Prop where
  | timeoutFires (w : WorkerPos) (l : List String) :
      HandleStep hresp tresp ⟨w, .selecting, l⟩ ⟨w, .timedOut, l ++ [tresp]⟩
  | rendezvousCalled (l : List String) :
      HandleStep hresp tresp ⟨.start, .selecting, l⟩ ⟨.called, .waitSent, l⟩
  | workerResponds (m : MainPos) (l : List String) :
      HandleStep hresp tresp ⟨.called, m, l⟩ ⟨.responded, m, l ++ [hresp]⟩
  | rendezvousSent (l : List String) :
      HandleStep hresp tresp ⟨.responded, .waitSent, l⟩ ⟨.finished, .done, l⟩

/-- Both goroutines start at the top with nothing written. -/
def handleInit : HandleConfig := ⟨.start, .selecting, []⟩

/-- Reachability of a configuration of `handleRequest` plus worker from the
initial configuration. -/
def HandleReachable (hresp tresp : String) (cfg : HandleConfig) : Prop :=
  Relation.ReflTransGen (HandleStep hresp tresp) handleInit cfg

/-! ## Shared helper lemmas -/

theorem sortStrings_sorted (l : List String) :
    List.Sorted (fun a b => a ≤ b) (sortStrings l) :=
  List.sorted_insertionSort _ l

theorem mem_sortStrings {l : List String} {a : String} :
    a ∈ sortStrings l ↔ a ∈ l :=
  (List.perm_insertionSort _ l).mem_iff

theorem goCopy_makeSlice (l : List String) :
    goCopy (makeSlice l.length) l = l := by
  simp [goCopy, makeSlice]

/-! ## Claim theorems -/

/-- C9: `GobCodec.Write` returns success only after encoding the header and
then the body and flushing the buffered writer to the underlying stream, and
whenever encoding the header or the body fails, `Write` returns that error
and closes the underlying stream before returning. -/
theorem gobCodec_write_flush_close (encH encB : Option String) (c : GobCodec)
    (h : RpcHeader) (b : String) :
    ((GobCodec.write encH encB c h b).2 = none →
        encH = none ∧ encB = none ∧
        (GobCodec.write encH encB c h b).1.buf = [] ∧
        (GobCodec.write encH encB c h b).1.conn =
          c.conn ++ c.buf ++ [Frame.header h, Frame.body b] ∧
        (GobCodec.write encH encB c h b).1.closed = c.closed) ∧
    (∀ e, encH = some e →
        (GobCodec.write encH encB c h b).2 = some e ∧
        (GobCodec.write encH encB c h b).1.closed = true) ∧
    (∀ e, encH = none → encB = some e →
        (GobCodec.write encH encB c h b).2 = some e ∧
        (GobCodec.write encH encB c h b).1.closed = true) := by
  cases encH <;> cases encB <;>
    simp [GobCodec.write, GobCodec.flush, GobCodec.close, List.append_assoc]

/-- Witness for C9 at a concrete codec state: a successful write of one
header/body pair flushes both frames, in order, onto the stream. -/
theorem gobCodec_write_flush_close_witness :
    (GobCodec.write none none ⟨[], [], false⟩ ⟨"Foo.Sum", 1, ""⟩ "body").2 = none ∧
    (GobCodec.write none none ⟨[], [], false⟩ ⟨"Foo.Sum", 1, ""⟩ "body").1.conn =
      [Frame.header ⟨"Foo.Sum", 1, ""⟩, Frame.body "body"] :=
  ⟨rfl, by
    have hmain :=
      (gobCodec_write_flush_close none none ⟨[], [], false⟩
        ⟨"Foo.Sum", 1, ""⟩ "body").1 rfl
    simpa using hmain.2.2.2.1⟩

/-- A method shape the source registers although the spec's eligibility rule
excludes it: exported name, two parameters, one `error` result, both
parameter types built-in, but the second parameter is *not* of pointer
shape (for instance `func (f Foo) Bad(a int, r int) error`). -/
def badReplyMethod : RMethod :=
  { name := "Bad", numIn := 3, numOut := 1, outIsError := true,
    argType := { name := "int", pkgPath := "", isPtr := false },
    replyType := { name := "int", pkgPath := "", isPtr := false } }

/-- C1 counterexample: `registerMethods` registers `badReplyMethod` even
though its second parameter is not a pointer type, so the claimed
eligibility rule (which demands `*R`) does not match the code: the source
never inspects `replyType.Kind()`. -/
theorem registerMethods_missing_ptr_check :
    registerMethods [badReplyMethod] = [badReplyMethod] ∧
    specEligible badReplyMethod = false := by
  constructor <;> rfl

/-- C1 amended: `registerMethods` registers exactly those methods of the
receiver whose name starts with an uppercase letter, whose signature takes
exactly two parameters after the receiver and returns exactly one value of
type `error`, and whose two parameter types are each exported or built-in;
the pointer shape of the second parameter is not checked. -/
theorem registerMethods_registered_iff (allMethods : List RMethod)
    (m : RMethod) :
    m ∈ registerMethods allMethods ↔
      m ∈ allMethods ∧ isExported m.name = true ∧ m.numIn = 3 ∧
        m.numOut = 1 ∧ m.outIsError = true ∧
        isExportedOrBuiltinType m.argType = true ∧
        isExportedOrBuiltinType m.replyType = true := by
  simp only [registerMethods, reflectMethodSet, passesRegisterGuards,
    List.filter_filter, List.mem_filter, Bool.and_eq_true, beq_iff_eq]
  tauto

/-- The shape of `Foo.Sum(args Args, reply *int) error` from the demo
program: a pointer `reflect.Type` has empty `Name()` and `PkgPath()`. -/
def sumMethod : RMethod :=
  { name := "Sum", numIn := 3, numOut := 1, outIsError := true,
    argType := { name := "Args", pkgPath := "main", isPtr := false },
    replyType := { name := "", pkgPath := "", isPtr := true } }

/-- Witness for C1's amended theorem at the demo method `Foo.Sum`. -/
theorem registerMethods_registered_iff_witness :
    sumMethod ∈ registerMethods [sumMethod] :=
  (registerMethods_registered_iff [sumMethod] sumMethod).mpr (by decide)

/-- A registry holding one entry for address `"a"` last seen at instant 5. -/
def regReg0 : GeeRegistry := { timeout := 10, servers := [("a", 5)] }

/-- C2, evaluated at the failing input: a `POST` carrying an address already
present in the registry leaves the entry's `lastSeen` unchanged (still 5,
not the current instant 100), because `putServer` has no refresh branch —
contradicting the claimed insert-or-refresh semantics and the source's own
comment on `putServer`.  The empty-header branch behaves as claimed. -/
theorem putServer_no_refresh_on_existing :
    (regReg0.serveHTTP 100 .post "a").1 = regReg0 ∧
    (regReg0.serveHTTP 100 .post "a").1.servers = [("a", 5)] ∧
    (regReg0.serveHTTP 100 .post "").2.status = 500 ∧
    (regReg0.serveHTTP 100 .post "").1 = regReg0 ∧
    (regReg0.serveHTTP 100 .post "b").1.servers = [("a", 5), ("b", 100)] := by
  decide

/-- C5: on a client that is closing or shut down, `registerCall` fails with
`ErrShutdown`, `send` (hence `Go`) leaves the pending map and the seq
counter untouched, and the call's `Done` channel is signalled with
`Error = ErrShutdown`. -/
theorem send_after_shutdown_errors (c : ClientState) (sm : String)
    (w : Option String) (h : c.closing = true ∨ c.shutdown = true) :
    registerCall c sm = .error .shutdown ∧
    (clientSend w c sm).state = c ∧
    (clientSend w c sm).doneError = some (some .shutdown) := by
  have hc : (c.closing || c.shutdown) = true := by
    rcases h with h | h <;> simp [h]
  refine ⟨?_, ?_, ?_⟩ <;> simp [registerCall, clientSend, hc]

/-- A client on which `Close` has been called, with one call pending. -/
def closedClient : ClientState :=
  { seq := 7, pending := [(3, "Foo.Sum")], closing := true, shutdown := false }

/-- Witness for C5 at a concrete closed client. -/
theorem send_after_shutdown_errors_witness :
    registerCall closedClient "Foo.Sum" = .error .shutdown ∧
    (clientSend none closedClient "Foo.Sum").state = closedClient ∧
    (clientSend none closedClient "Foo.Sum").doneError =
      some (some .shutdown) :=
  send_after_shutdown_errors closedClient "Foo.Sum" none (Or.inl rfl)

/-- C6: when the caller's context is cancelled before the call's `Done`
channel fires, `Call` removes the call's entry from the pending map — the
call's `Seq` is no longer pending afterwards — and returns the error built
from the cancellation cause instead of waiting for the reply. -/
theorem call_cancel_removes_pending (c : ClientState) (s : Nat)
    (ce : String) :
    (clientCallSelect c s (.ctxDone ce)).1 = removeCall c s ∧
    (∀ p ∈ (clientCallSelect c s (.ctxDone ce)).1.pending, p.1 ≠ s) ∧
    (clientCallSelect c s (.ctxDone ce)).2 =
      some (.callFailed ("rpc client: call failed: " ++ ce)) := by
  refine ⟨rfl, ?_, rfl⟩
  intro p hp
  have hp' := (List.mem_filter.mp hp).2
  simpa using hp'

/-- A client with two pending calls. -/
def busyClient : ClientState :=
  { seq := 3, pending := [(1, "Foo.Sum"), (2, "Foo.Sleep")],
    closing := false, shutdown := false }

/-- Witness for C6: cancelling the call with `Seq = 2` empties it from the
pending map and surfaces the cancellation error. -/
theorem call_cancel_removes_pending_witness :
    (clientCallSelect busyClient 2 (.ctxDone "context canceled")).1.pending =
      [(1, "Foo.Sum")] ∧
    (clientCallSelect busyClient 2 (.ctxDone "context canceled")).2 =
      some (.callFailed "rpc client: call failed: context canceled") := by
  have h := call_cancel_removes_pending busyClient 2 "context canceled"
  exact ⟨by rw [h.1]; rfl, h.2.2⟩

/-- C10: `GetAll` leaves the discovery unchanged and returns a freshly
allocated slice whose contents equal the internal server list
element-for-element; the fresh reference differs from the internal one, so
a later mutation through the returned slice leaves the discovery's internal
servers list (and, the state being untouched, its cursor) unchanged. -/
theorem getAll_returns_fresh_copy (h : SliceHeap) (d : MSDiscoveryRef)
    (hwf : d.serversRef < h.next) :
    (msdGetAll h d).2.1 = d ∧
    (msdGetAll h d).1.contents (msdGetAll h d).2.2 =
      h.contents d.serversRef ∧
    (msdGetAll h d).1.contents d.serversRef = h.contents d.serversRef ∧
    (msdGetAll h d).2.2 ≠ d.serversRef ∧
    ∀ v, ((msdGetAll h d).1.write (msdGetAll h d).2.2 v).contents
      d.serversRef = h.contents d.serversRef := by
  have hne : d.serversRef ≠ h.next := Nat.ne_of_lt hwf
  refine ⟨rfl, ?_, ?_, ?_, ?_⟩
  · simp [msdGetAll, goCopy_makeSlice]
  · simp [msdGetAll, hne]
  · exact fun heq => hne heq.symm
  · intro v
    simp [msdGetAll, SliceHeap.write, hne]

/-- A one-slice heap: reference 0 holds the discovery's server list. -/
def heap0 : SliceHeap :=
  { contents := fun i => if i = 0 then ["tcp@a:1", "tcp@b:2"] else [],
    next := 1 }

/-- Witness for C10 on a concrete heap: the copy is equal to the internal
list and overwriting the returned slice leaves the internal list intact. -/
theorem getAll_returns_fresh_copy_witness :
    (msdGetAll heap0 ⟨0, 4⟩).1.contents (msdGetAll heap0 ⟨0, 4⟩).2.2 =
      ["tcp@a:1", "tcp@b:2"] ∧
    ((msdGetAll heap0 ⟨0, 4⟩).1.write (msdGetAll heap0 ⟨0, 4⟩).2.2
        []).contents 0 = ["tcp@a:1", "tcp@b:2"] := by
  have h := getAll_returns_fresh_copy heap0 ⟨0, 4⟩ (by decide)
  exact ⟨h.2.1, h.2.2.2.2 []⟩

/-- C3: a registry `GET` emits in `X-Geerpc-Servers` only addresses that are
still alive (no address with `lastSeen + ttl ≤ now`, unless `ttl = 0` which
disables expiry), the emitted list is sorted lexicographically, and every
expired entry is deleted from the registry as a side effect. -/
theorem registryGet_alive_sorted_prunes (r : GeeRegistry) (now : Nat)
    (hkeys : (r.servers.map Prod.fst).Nodup) :
    (∀ a ∈ (r.aliveServers now).1, ∀ t, (a, t) ∈ r.servers →
        r.timeout = 0 ∨ now < t + r.timeout) ∧
    List.Sorted (fun a b => a ≤ b) (r.aliveServers now).1 ∧
    (r.aliveServers now).2.servers =
      r.servers.filter (aliveTest r.timeout now) ∧
    (r.serveHTTP now .get "").2.serversHeader =
      some (String.intercalate "," (r.aliveServers now).1) := by
  refine ⟨?_, sortStrings_sorted _, rfl, rfl⟩
  intro a ha t hat
  have ha' : a ∈ (r.servers.filter (aliveTest r.timeout now)).map Prod.fst :=
    mem_sortStrings.mp ha
  rcases List.mem_map.mp ha' with ⟨p, hp, hpa⟩
  have hpmem := (List.mem_filter.mp hp).1
  have hptest := (List.mem_filter.mp hp).2
  have hpeq : p = (a, t) :=
    List.inj_on_of_nodup_map hkeys hpmem hat hpa
  rw [hpeq] at hptest
  simpa [aliveTest] using hptest

/-- A registry with three entries, two alive at instant 100 and one long
expired. -/
def regW : GeeRegistry :=
  { timeout := 10, servers := [("tcp@b", 95), ("tcp@a", 98), ("tcp@c", 10)] }

/-- Witness for C3: at instant 100 the emitted list is the sorted pair of
live addresses and the expired entry is pruned. -/
theorem registryGet_alive_sorted_prunes_witness :
    List.Sorted (fun a b => a ≤ b) (regW.aliveServers 100).1 ∧
    (regW.aliveServers 100).2.servers = [("tcp@b", 95), ("tcp@a", 98)] := by
  have h := registryGet_alive_sorted_prunes regW 100 (by decide)
  exact ⟨h.2.1, by rw [h.2.2.1]; rfl⟩

/-- The `Seq` values handed out by `n` successful `registerCall`s starting
from a client state `c` that is neither closing nor shut down: the `k`-th
registration assigns `(c.seq + k) mod 2 ^ 64`. -/
theorem runRegisters_eq_map (sm : String) (n : Nat) :
    ∀ c : ClientState, c.closing = false → c.shutdown = false →
      c.seq < U64 →
      (runRegisters sm c n).2 =
        (List.range n).map (fun k => (c.seq + k) % U64) := by
  induction n with
  | zero => intro c _ _ _; simp [runRegisters]
  | succ n ih =>
    intro c hcl hsh hs
    have hU : 0 < U64 := by norm_num [U64]
    have hreg : registerCall c sm = Except.ok (c.seq,
        { c with pending := c.pending ++ [(c.seq, sm)],
                 seq := (c.seq + 1) % U64 }) := by
      simp [registerCall, hcl, hsh]
    have ih' := ih
      { c with pending := c.pending ++ [(c.seq, sm)],
               seq := (c.seq + 1) % U64 } hcl hsh (Nat.mod_lt _ hU)
    simp only [runRegisters, hreg]
    rw [ih', List.range_succ_eq_map, List.map_cons, List.map_map]
    refine List.cons_eq_cons.mpr ⟨?_, List.map_congr_left ?_⟩
    · exact ((Nat.add_zero c.seq).symm ▸ (Nat.mod_eq_of_lt hs)).symm
    · intro k _
      show ((c.seq + 1) % U64 + k) % U64 = (c.seq + (k + 1)) % U64
      rw [Nat.mod_add_mod]
      ring_nf

/-- C4 counterexample: the `seq` counter is a `uint64` that wraps, so after
`2 ^ 64` successful registrations the client assigns `Seq = 0` — the claim
"Seq = 0 is never assigned" does not hold over an unbounded lifetime. -/
theorem seq_wraparound_assigns_zero :
    0 ∈ (runRegisters "Foo.Sum" initClient U64).2 := by
  have h := runRegisters_eq_map "Foo.Sum" U64 initClient rfl rfl
    (by norm_num [U64, initClient])
  rw [h]
  have hU : 0 < U64 := by norm_num [U64]
  refine List.mem_map.mpr ⟨U64 - 1, List.mem_range.mpr (by omega), ?_⟩
  show (initClient.seq + (U64 - 1)) % U64 = 0
  have h1 : initClient.seq = 1 := rfl
  have h2 : initClient.seq + (U64 - 1) = U64 := by rw [h1]; omega
  rw [h2, Nat.mod_self]

/-- C4 amended: over any sequence of fewer than `2 ^ 64` successful
`registerCall` operations on a fresh client, the assigned `Seq` values are
exactly `1, 2, …, n`: strictly increasing, pairwise distinct, and never 0.
(The `uint64` counter wraps only after `2 ^ 64` registrations.) -/
theorem registerCall_assigns_increasing_seqs (sm : String) (n : Nat)
    (hn : n < U64) :
    (runRegisters sm initClient n).2 = List.range' 1 n ∧
    List.Pairwise (fun a b => a < b) (runRegisters sm initClient n).2 ∧
    (runRegisters sm initClient n).2.Nodup ∧
    0 ∉ (runRegisters sm initClient n).2 := by
  have h := runRegisters_eq_map sm n initClient rfl rfl
    (by norm_num [U64, initClient])
  have heq : (runRegisters sm initClient n).2 = List.range' 1 n := by
    rw [h, List.range'_eq_map_range]
    refine List.map_congr_left ?_
    intro k hk
    have hk' : k < n := List.mem_range.mp hk
    show (initClient.seq + k) % U64 = 1 + k
    have h1 : initClient.seq = 1 := rfl
    rw [h1]
    exact Nat.mod_eq_of_lt (by omega)
  refine ⟨heq, ?_, ?_, ?_⟩
  · rw [heq]; exact List.pairwise_lt_range' 1 n
  · rw [heq]; exact List.nodup_range' 1 n
  · rw [heq]
    intro h0
    have := (List.mem_range'_1.mp h0).1
    omega

/-- Witness for C4's amended theorem: three registrations on a fresh client
assign `Seq` values 1, 2, 3. -/
theorem registerCall_assigns_increasing_seqs_witness :
    (3 : Nat) < U64 ∧
    (runRegisters "Foo.Sum" initClient 3).2 = List.range' 1 3 :=
  ⟨by norm_num [U64],
   (registerCall_assigns_increasing_seqs "Foo.Sum" 3 (by norm_num [U64])).1⟩

/-- Reading a list through `getD` along `range' k m` yields the slice
`(l.drop k).take m`, provided the indices stay in bounds. -/
theorem map_getD_range' (l : List String) (m : Nat) :
    ∀ k, k + m ≤ l.length →
      (List.range' k m).map (fun j => l.getD j "") = (l.drop k).take m := by
  induction m with
  | zero => intro k _; simp
  | succ m ih =>
    intro k hk
    have hkl : k < l.length := by omega
    rw [List.range'_succ, List.map_cons, ih (k + 1) (by omega),
        List.drop_eq_getElem_cons hkl, List.take_succ_cons]
    congr 1
    rw [List.getD_eq_getElem?_getD, List.getElem?_eq_getElem hkl]
    rfl

/-- Reading a nonempty list cyclically (`getD` at `(i + j) mod n` for
`j < n`), starting at an in-range offset `i`, produces the rotation of the
list by `i`. -/
theorem map_getD_mod_rotate (l : List String) (i : Nat)
    (hin : i < l.length) :
    (List.range l.length).map (fun j => l.getD ((i + j) % l.length) "") =
      l.rotate i := by
  have hsplit : List.range' 0 (l.length - i) ++ List.range' (l.length - i) i
      = List.range' 0 l.length := by
    have h2 : i + (l.length - i) = l.length := by omega
    simpa [h2] using List.range'_append 0 (l.length - i) i 1
  rw [List.range_eq_range', ← hsplit, List.map_append]
  have hfirst : (List.range' 0 (l.length - i)).map
      (fun j => l.getD ((i + j) % l.length) "") = l.drop i := by
    have hcong : ∀ j ∈ List.range' 0 (l.length - i),
        l.getD ((i + j) % l.length) "" = l.getD (i + j) "" := by
      intro j hj
      have hj' := List.mem_range'_1.mp hj
      rw [Nat.mod_eq_of_lt (by omega)]
    rw [List.map_congr_left hcong]
    have hstep : (List.range' 0 (l.length - i)).map (fun j => l.getD (i + j) "")
        = ((List.range' 0 (l.length - i)).map (fun x => i + x)).map
            (fun j => l.getD j "") := by
      rw [List.map_map]; rfl
    rw [hstep, List.map_add_range', Nat.add_zero,
        map_getD_range' l (l.length - i) i (by omega)]
    exact List.take_of_length_le (by rw [List.length_drop])
  have hsecond : (List.range' (l.length - i) i).map
      (fun j => l.getD ((i + j) % l.length) "") = l.take i := by
    have hcong : ∀ j ∈ List.range' (l.length - i) i,
        l.getD ((i + j) % l.length) "" = l.getD (j - (l.length - i)) "" := by
      intro j hj
      have hj' := List.mem_range'_1.mp hj
      have hlt : i + j < 2 * l.length := by omega
      have hge : l.length ≤ i + j := by omega
      have hmod : (i + j) % l.length = i + j - l.length := by
        rw [Nat.mod_eq_sub_mod hge, Nat.mod_eq_of_lt (by omega)]
      rw [hmod]
      congr 1
      omega
    rw [List.map_congr_left hcong]
    have hstep : (List.range' (l.length - i) i).map
        (fun j => l.getD (j - (l.length - i)) "")
        = ((List.range' (l.length - i) i).map
            (fun x => x - (l.length - i))).map (fun j => l.getD j "") := by
      rw [List.map_map]; rfl
    have hind : (List.range' (l.length - i) i).map
        (fun x => x - (l.length - i)) = List.range' 0 i := by
      have := List.map_add_range' (l.length - i) 0 i 1
      rw [Nat.add_zero] at this
      rw [← this, List.map_map]
      have : ∀ j ∈ List.range' 0 i,
          ((fun x => x - (l.length - i)) ∘ (fun x => l.length - i + x)) j
            = j := by
        intro j _
        simp
      rw [List.map_congr_left this, List.map_id']
    rw [hstep, hind, map_getD_range' l i 0 (by omega), List.drop_zero]
  rw [hfirst, hsecond]
  exact (List.rotate_eq_drop_append_take (by omega)).symm

/-- The servers returned by `k` consecutive round-robin `Get` calls on a
nonempty discovery: the `j`-th call picks position `(index + j) mod n`, and
the server list itself never changes. -/
theorem rrGetMany_eq_map (k : Nat) :
    ∀ d : MSDiscovery, d.servers ≠ [] →
      (rrGetMany d k).1 = (List.range k).map
        (fun j => d.servers.getD ((d.index + j) % d.servers.length) "") ∧
      (rrGetMany d k).2.servers = d.servers := by
  induction k with
  | zero => intro d _; simp [rrGetMany]
  | succ k ih =>
    intro d hd
    have hn0 : ¬ d.servers.length = 0 := by
      simpa [List.length_eq_zero] using hd
    have hget : msdGet d .roundRobinSelect 0 =
        Except.ok (d.servers.getD (d.index % d.servers.length) "",
          { d with index := (d.index + 1) % d.servers.length }) := by
      simp [msdGet, hn0]
    have ih' := ih { d with index := (d.index + 1) % d.servers.length } hd
    refine ⟨?_, ?_⟩
    · simp only [rrGetMany, hget]
      rw [ih'.1, List.range_succ_eq_map, List.map_cons, List.map_map]
      refine List.cons_eq_cons.mpr ⟨by rw [Nat.add_zero], List.map_congr_left ?_⟩
      intro j _
      show d.servers.getD
            (((d.index + 1) % d.servers.length + j) % d.servers.length) ""
          = d.servers.getD ((d.index + (j + 1)) % d.servers.length) ""
      rw [Nat.mod_add_mod]
      congr 2
      omega
    · simp only [rrGetMany, hget]
      exact ih'.2

/-- C7: on a nonempty server list, round-robin `Get` returns the server at
position `index mod n` and advances the cursor to `(index + 1) mod n`, so
`n` consecutive `Get`s (no interleaving `Update`) return the rotation of the
server list starting at the cursor — each server exactly once, in cyclic
order; the constructor initialises the cursor from the random draw
(`Intn(math.MaxInt32 - 1)`, hence a position below `2 ^ 31 - 2`); and `Get`
fails on an empty list in both selection modes. -/
theorem multiServersDiscovery_get_spec (d : MSDiscovery) (k : Nat)
    (servers : List String) (rng : Nat) :
    (d.servers = [] →
       msdGet d .randomSelect k =
         .error "rpc discovery: no available servers" ∧
       msdGet d .roundRobinSelect k =
         .error "rpc discovery: no available servers") ∧
    (d.servers ≠ [] →
       msdGet d .roundRobinSelect k =
         .ok (d.servers.getD (d.index % d.servers.length) "",
              { d with index := (d.index + 1) % d.servers.length }) ∧
       (rrGetMany d d.servers.length).1 =
         d.servers.rotate (d.index % d.servers.length) ∧
       (rrGetMany d d.servers.length).1.Perm d.servers) ∧
    (newMultiServersDiscovery servers rng).servers = servers ∧
    (newMultiServersDiscovery servers rng).index = rng % maxInt32m1 ∧
    (newMultiServersDiscovery servers rng).index < maxInt32m1 := by
  refine ⟨?_, ?_, rfl, rfl, Nat.mod_lt _ (by norm_num [maxInt32m1])⟩
  · intro hd
    have h0 : d.servers.length = 0 := by simp [hd]
    constructor <;> simp [msdGet, h0]
  · intro hd
    have hn0 : ¬ d.servers.length = 0 := by
      simpa [List.length_eq_zero] using hd
    have hnpos : 0 < d.servers.length := Nat.pos_of_ne_zero hn0
    have hrot : (rrGetMany d d.servers.length).1 =
        d.servers.rotate (d.index % d.servers.length) := by
      rw [(rrGetMany_eq_map d.servers.length d hd).1]
      have hcong : ∀ j ∈ List.range d.servers.length,
          d.servers.getD ((d.index + j) % d.servers.length) ""
            = d.servers.getD
                ((d.index % d.servers.length + j) % d.servers.length) "" := by
        intro j _
        rw [Nat.mod_add_mod]
      rw [List.map_congr_left hcong]
      exact map_getD_mod_rotate d.servers (d.index % d.servers.length)
        (Nat.mod_lt _ hnpos)
    refine ⟨?_, hrot, ?_⟩
    · simp [msdGet, hn0]
    · rw [hrot]
      exact List.rotate_perm d.servers (d.index % d.servers.length)

/-- A discovery over three servers with cursor 5. -/
def disc3 : MSDiscovery := { servers := ["tcp@a", "tcp@b", "tcp@c"], index := 5 }

/-- Witness for C7: on `disc3` the next pick is position `5 mod 3 = 2`, and
three consecutive `Get`s return the cyclic rotation starting there. -/
theorem multiServersDiscovery_get_spec_witness :
    (rrGetMany disc3 3).1 = ["tcp@c", "tcp@a", "tcp@b"] ∧
    (rrGetMany disc3 3).1.Perm disc3.servers := by
  have h := (multiServersDiscovery_get_spec disc3 0 [] 0).2.1 (by decide)
  exact ⟨h.2.1.trans (by decide), h.2.2⟩

/-- Invariant of the `handleRequest` transition system: while the `select`
is still pending nothing has been written and the worker has not passed the
`called` rendezvous; once the timeout branch has been taken, the worker is
still stuck before the `called` rendezvous (the channel is unbuffered and
`handleRequest` has returned, so no receiver ever arrives) and the
connection carries exactly the timeout response. -/
theorem handleReachable_inv (hresp tresp : String) (cfg : HandleConfig)
    (h : HandleReachable hresp tresp cfg) :
    (cfg.main = .selecting → cfg.worker = .start ∧ cfg.writes = []) ∧
    (cfg.main = .timedOut → cfg.worker = .start ∧ cfg.writes = [tresp]) := by
  induction h with
  | refl => exact ⟨fun _ => ⟨rfl, rfl⟩, (fun hm => nomatch hm)⟩
  | tail _ hstep ih =>
    cases hstep with
    | timeoutFires w l =>
      rcases ih.1 rfl with ⟨hw, hl⟩
      subst hw
      subst hl
      exact ⟨(fun hm => nomatch hm), fun _ => ⟨rfl, rfl⟩⟩
    | rendezvousCalled l =>
      exact ⟨(fun hm => nomatch hm), (fun hm => nomatch hm)⟩
    | workerResponds m l =>
      exact ⟨(fun hm => nomatch (ih.1 hm).1), (fun hm => nomatch (ih.2 hm).1)⟩
    | rendezvousSent l =>
      exact ⟨(fun hm => nomatch hm), (fun hm => nomatch hm)⟩

/-- C8: under a nonzero `HandleTimeout`, in every execution of
`handleRequest` in which the deadline fires before the handler's `called`
signal is received, the server writes exactly one response for the request —
the error response whose header `Error` contains "request handle timeout" —
and the handler's own late response is never written to the connection. -/
theorem handleRequest_timeout_single_response (hresp ts : String)
    (cfg : HandleConfig)
    (h : HandleReachable hresp (timeoutRespError ts) cfg)
    (ht : cfg.main = .timedOut) :
    cfg.writes = [timeoutRespError ts] ∧
    ("request handle timeout").data <:+: (timeoutRespError ts).data := by
  refine ⟨((handleReachable_inv hresp (timeoutRespError ts) cfg h).2 ht).2, ?_⟩
  refine ⟨("rpc server: ").data, (": except within ").data ++ ts.data, ?_⟩
  have hdata : ("rpc server: request handle timeout: except within ").data
      = ("rpc server: ").data ++ ("request handle timeout").data ++
          (": except within ").data := by decide
  show ("rpc server: ").data ++ ("request handle timeout").data ++
      ((": except within ").data ++ ts.data) = (timeoutRespError ts).data
  rw [timeoutRespError, String.data_append, hdata]
  simp [List.append_assoc]

/-- Witness for C8: the configuration reached by the single step in which
the deadline fires immediately is timed out and carries exactly the timeout
response. -/
theorem handleRequest_timeout_single_response_witness :
    (⟨WorkerPos.start, MainPos.timedOut,
        [timeoutRespError "1s"]⟩ : HandleConfig).writes
      = [timeoutRespError "1s"] ∧
    ("request handle timeout").data <:+: (timeoutRespError "1s").data :=
  handleRequest_timeout_single_response "ok" "1s"
    ⟨WorkerPos.start, MainPos.timedOut, [timeoutRespError "1s"]⟩
    (Relation.ReflTransGen.single
      (HandleStep.timeoutFires WorkerPos.start []))
    rfl
